import Mathlib

/-!
Verification of the fellowship_live service core (src/src/main.rs).

The repository is a single-file Solana-facing HTTP service.  The handlers in
`main.rs` parse base58 strings into public keys, call the instruction builders
of the `spl-token` / `solana-sdk` dependencies, sign messages with
`ed25519-dalek`, and wrap the results in JSON response records.  This file is
a shallow embedding of those handlers and of the byte-level wire formats the
dependency builders produce.  Bytes are modelled as `List ℕ` with entries
below 256; machine integers are `ℕ` with explicit range hypotheses or
truncating conversions where overflow matters.
-/

/-! ### Base-58 encoding (models the `bs58` crate with the Bitcoin alphabet) -/

/-- The Bitcoin base58 alphabet used by `bs58`, as a list of characters;
position in the list is the digit value. -/
def base58Chars : List Char :=
  ['1','2','3','4','5','6','7','8','9',
   'A','B','C','D','E','F','G','H','J','K','L','M','N','P','Q','R','S','T','U','V','W','X','Y','Z',
   'a','b','c','d','e','f','g','h','i','j','k','m','n','o','p','q','r','s','t','u','v','w','x','y','z']

/-- Character for a base58 digit value. -/
def b58Char (d : ℕ) : Char := base58Chars.getD d '?'

def b58ValAux : List Char → ℕ → Char → Option ℕ
  | [], _, _ => none
  | a :: t, i, c => if c = a then some i else b58ValAux t (i + 1) c

/-- Digit value of a base58 character, `none` for characters outside the
alphabet (the `bs58` decode error case). -/
def b58Val (c : Char) : Option ℕ := b58ValAux base58Chars 0 c

/-- Little-endian digits of `n` in base `b`, computed with structural
recursion on a fuel argument so the kernel can evaluate it.  Agrees with
`Nat.digits` for `2 ≤ b` (proved below). -/
def natDigitsAux (b : ℕ) : ℕ → ℕ → List ℕ
  | 0, _ => []
  | fuel + 1, n => if n = 0 then [] else n % b :: natDigitsAux b fuel (n / b)

def natDigits (b n : ℕ) : List ℕ := natDigitsAux b n n

/-- Number of leading zero bytes (the `bs58` encoder maps each to a `'1'`). -/
def leadingZeroBytes : List ℕ → ℕ
  | [] => 0
  | x :: t => if x = 0 then leadingZeroBytes t + 1 else 0

/-- Big-endian value of a byte string. -/
def beVal (l : List ℕ) : ℕ := Nat.ofDigits 256 l.reverse

/-- `bs58::encode(bytes).into_string()`: one `'1'` per leading zero byte,
then the big-endian base58 digits of the value of the remaining bytes. -/
def bs58encode (l : List ℕ) : String :=
  ⟨List.replicate (leadingZeroBytes l) '1' ++ (natDigits 58 (beVal l)).reverse.map b58Char⟩

def decodeDigits : List Char → Option (List ℕ)
  | [] => some []
  | c :: t =>
    match b58Val c, decodeDigits t with
    | some d, some ds => some (d :: ds)
    | _, _ => none

/-- Number of leading `'1'` characters (each stands for a zero byte). -/
def leadingOneChars : List Char → ℕ
  | [] => 0
  | c :: t => if c = '1' then leadingOneChars t + 1 else 0

/-- `bs58::decode(s).into_vec()`: fails on any character outside the
alphabet; otherwise one zero byte per leading `'1'`, followed by the
big-endian base-256 digits of the base58 value of the character string. -/
def bs58decode (s : String) : Option (List ℕ) :=
  match decodeDigits s.data with
  | none => none
  | some ds =>
    some (List.replicate (leadingOneChars s.data) 0 ++
      (natDigits 256 (Nat.ofDigits 58 ds.reverse)).reverse)

/-! ### Base-64 encoding (models `base64::encode`, standard padded alphabet) -/

def base64Chars : List Char :=
  ['A','B','C','D','E','F','G','H','I','J','K','L','M','N','O','P','Q','R','S','T','U','V','W','X','Y','Z',
   'a','b','c','d','e','f','g','h','i','j','k','l','m','n','o','p','q','r','s','t','u','v','w','x','y','z',
   '0','1','2','3','4','5','6','7','8','9','+','/']

def b64Char (d : ℕ) : Char := base64Chars.getD d '?'

def base64encodeChars : List ℕ → List Char
  | [] => []
  | [a] => [b64Char (a / 4), b64Char (a % 4 * 16), '=', '=']
  | [a, b] => [b64Char (a / 4), b64Char (a % 4 * 16 + b / 16), b64Char (b % 16 * 4), '=']
  | a :: b :: c :: rest =>
    b64Char (a / 4) :: b64Char (a % 4 * 16 + b / 16) :: b64Char (b % 16 * 4 + c / 64) ::
      b64Char (c % 64) :: base64encodeChars rest

/-- `base64::encode(bytes)` with the standard padded alphabet. -/
def base64encode (l : List ℕ) : String := ⟨base64encodeChars l⟩

/-! ### Bridging `natDigits` with `Nat.digits` -/

theorem natDigitsAux_eq_digits (b : ℕ) (hb : 1 < b) :
    ∀ fuel n, n ≤ fuel → natDigitsAux b fuel n = Nat.digits b n := by
  intro fuel
  induction fuel with
  | zero =>
    intro n hn
    have : n = 0 := Nat.le_zero.mp hn
    subst this
    simp [natDigitsAux]
  | succ f ih =>
    intro n hn
    by_cases h : n = 0
    · subst h; simp [natDigitsAux]
    · have hpos : 0 < n := Nat.pos_of_ne_zero h
      have hdiv : n / b < n := Nat.div_lt_self hpos hb
      have hle : n / b ≤ f := Nat.le_of_lt_succ (lt_of_lt_of_le hdiv hn)
      rw [natDigitsAux, if_neg h, ih _ hle, ← Nat.digits_def' hb hpos]

theorem natDigits_eq_digits (b n : ℕ) (hb : 1 < b) : natDigits b n = Nat.digits b n :=
  natDigitsAux_eq_digits b hb n n le_rfl

/-! ### Base-58 round trip -/

theorem replicate_leadingZeroBytes_append_drop (b : List ℕ) :
    List.replicate (leadingZeroBytes b) 0 ++ b.drop (leadingZeroBytes b) = b := by
  induction b with
  | nil => simp [leadingZeroBytes]
  | cons x t ih =>
    by_cases hx : x = 0
    · subst hx
      simp [leadingZeroBytes, List.replicate_succ, ih]
    · simp [leadingZeroBytes, hx]

theorem head?_drop_leadingZeroBytes (b : List ℕ) :
    (b.drop (leadingZeroBytes b)).head? ≠ some 0 := by
  induction b with
  | nil => simp [leadingZeroBytes]
  | cons x t ih =>
    by_cases hx : x = 0
    · subst hx
      simpa [leadingZeroBytes] using ih
    · simp [leadingZeroBytes, hx]

theorem leadingZeroBytes_replicate_append (k : ℕ) (c : List ℕ) (h : c.head? ≠ some 0) :
    leadingZeroBytes (List.replicate k 0 ++ c) = k := by
  induction k with
  | zero =>
    cases c with
    | nil => simp [leadingZeroBytes]
    | cons x xs =>
      have hx : x ≠ 0 := by simpa using h
      simp [leadingZeroBytes, hx]
  | succ n ih => simp [List.replicate_succ, leadingZeroBytes, ih]

theorem ofDigits_replicate_zero (b k : ℕ) : Nat.ofDigits b (List.replicate k 0) = 0 := by
  induction k with
  | zero => simp [Nat.ofDigits]
  | succ n ih => simp [List.replicate_succ, Nat.ofDigits_cons, ih]

theorem beVal_replicate_zero_append (k : ℕ) (c : List ℕ) :
    beVal (List.replicate k 0 ++ c) = Nat.ofDigits 256 c.reverse := by
  rw [beVal, List.reverse_append, List.reverse_replicate, Nat.ofDigits_append,
    ofDigits_replicate_zero]
  simp

theorem b58Val_one : b58Val '1' = some 0 := rfl

theorem b58Val_b58Char : ∀ d, d < 58 → b58Val (b58Char d) = some d := by decide

theorem b58Char_ne_one : ∀ d, d < 58 → d ≠ 0 → b58Char d ≠ '1' := by decide

theorem decodeDigits_append {l1 l2 : List Char} {d1 d2 : List ℕ}
    (h1 : decodeDigits l1 = some d1) (h2 : decodeDigits l2 = some d2) :
    decodeDigits (l1 ++ l2) = some (d1 ++ d2) := by
  induction l1 generalizing d1 with
  | nil =>
    simp [decodeDigits] at h1
    subst h1
    simpa using h2
  | cons c t ih =>
    cases hv : b58Val c with
    | none => simp [decodeDigits, hv] at h1
    | some v =>
      cases hd : decodeDigits t with
      | none => simp [decodeDigits, hv, hd] at h1
      | some ds =>
        simp [decodeDigits, hv, hd] at h1
        subst h1
        simp [List.cons_append, decodeDigits, hv, ih hd]

theorem decodeDigits_replicate_one (k : ℕ) :
    decodeDigits (List.replicate k '1') = some (List.replicate k 0) := by
  induction k with
  | zero => simp [decodeDigits]
  | succ n ih => simp [List.replicate_succ, decodeDigits, b58Val_one, ih]

theorem decodeDigits_map_b58Char (ds : List ℕ) (h : ∀ d ∈ ds, d < 58) :
    decodeDigits (ds.map b58Char) = some ds := by
  induction ds with
  | nil => simp [decodeDigits]
  | cons d t ih =>
    have hd : d < 58 := h d (List.mem_cons_self d t)
    have ht : decodeDigits (t.map b58Char) = some t :=
      ih fun x hx => h x (List.mem_cons_of_mem d hx)
    simp [List.map_cons, decodeDigits, b58Val_b58Char d hd, ht]

theorem leadingOneChars_replicate_append (k : ℕ) (r : List Char) :
    leadingOneChars (List.replicate k '1' ++ r) = k + leadingOneChars r := by
  induction k with
  | zero => simp [leadingOneChars]
  | succ n ih =>
    have hstep : leadingOneChars ('1' :: (List.replicate n '1' ++ r)) =
        leadingOneChars (List.replicate n '1' ++ r) + 1 := by
      simp [leadingOneChars]
    rw [List.replicate_succ, List.cons_append, hstep, ih]
    omega

theorem leadingOneChars_cons_ne (c : Char) (r : List Char) (h : c ≠ '1') :
    leadingOneChars (c :: r) = 0 := by
  simp [leadingOneChars, h]

theorem getLast_of_eq_append {α : Type} {l l' : List α} {a : α} (h : l = l' ++ [a])
    (hne : l ≠ []) : l.getLast hne = a := by
  subst h
  simp [List.getLast_append]

theorem bs58decode_eq_of (s : String) (ds : List ℕ) (h : decodeDigits s.data = some ds) :
    bs58decode s = some (List.replicate (leadingOneChars s.data) 0 ++
      (natDigits 256 (Nat.ofDigits 58 ds.reverse)).reverse) := by
  unfold bs58decode
  rw [h]

/-- Inverse property of the modelled `bs58` codec: decoding an encoded byte
string returns the original bytes.  This is the spec §8 round-trip law and the
backbone of the keypair-consistency claim. -/
theorem bs58_roundtrip (b : List ℕ) (hb : ∀ x ∈ b, x < 256) :
    bs58decode (bs58encode b) = some b := by
  obtain ⟨k, c, rfl, hhead⟩ : ∃ k c, b = List.replicate k 0 ++ c ∧ c.head? ≠ some 0 :=
    ⟨leadingZeroBytes b, b.drop (leadingZeroBytes b),
      (replicate_leadingZeroBytes_append_drop b).symm, head?_drop_leadingZeroBytes b⟩
  have hcb : ∀ x ∈ c, x < 256 := fun x hx => hb x (List.mem_append_right _ hx)
  set n := Nat.ofDigits 256 c.reverse with hn
  have hlz : leadingZeroBytes (List.replicate k 0 ++ c) = k :=
    leadingZeroBytes_replicate_append k c hhead
  have hnc : beVal (List.replicate k 0 ++ c) = n := beVal_replicate_zero_append k c
  have hchars : (bs58encode (List.replicate k 0 ++ c)).data =
      List.replicate k '1' ++ (Nat.digits 58 n).reverse.map b58Char := by
    have hdef : (bs58encode (List.replicate k 0 ++ c)).data =
        List.replicate (leadingZeroBytes (List.replicate k 0 ++ c)) '1' ++
          (natDigits 58 (beVal (List.replicate k 0 ++ c))).reverse.map b58Char := rfl
    rw [hdef, hlz, hnc, natDigits_eq_digits 58 n (by norm_num)]
  have hd58 : ∀ d ∈ (Nat.digits 58 n).reverse, d < 58 := fun d hd =>
    Nat.digits_lt_base (by norm_num) (List.mem_reverse.mp hd)
  have hdecode : decodeDigits (bs58encode (List.replicate k 0 ++ c)).data =
      some (List.replicate k 0 ++ (Nat.digits 58 n).reverse) := by
    rw [hchars]
    exact decodeDigits_append (decodeDigits_replicate_one k)
      (decodeDigits_map_b58Char _ hd58)
  have hones : leadingOneChars (bs58encode (List.replicate k 0 ++ c)).data = k := by
    rw [hchars, leadingOneChars_replicate_append]
    by_cases hn0 : n = 0
    · simp [hn0, leadingOneChars]
    · have hne : Nat.digits 58 n ≠ [] := Nat.digits_ne_nil_iff_ne_zero.mpr hn0
      obtain ⟨d, ds', hrev⟩ : ∃ d ds', (Nat.digits 58 n).reverse = d :: ds' := by
        cases hrevc : (Nat.digits 58 n).reverse with
        | nil =>
          exfalso
          apply hne
          have := congrArg List.reverse hrevc
          simpa using this
        | cons d ds' => exact ⟨d, ds', rfl⟩
      have hdig : Nat.digits 58 n = ds'.reverse ++ [d] := by
        have := congrArg List.reverse hrev
        simpa using this
      have hdmem : d ∈ Nat.digits 58 n := by
        rw [hdig]
        exact List.mem_append_right _ (List.mem_singleton_self d)
      have hdlt : d < 58 := Nat.digits_lt_base (by norm_num) hdmem
      have hdlast : d ≠ 0 := by
        have hx := Nat.getLast_digit_ne_zero 58 hn0
        rwa [getLast_of_eq_append hdig] at hx
      rw [hrev, List.map_cons,
        leadingOneChars_cons_ne _ _ (b58Char_ne_one d hdlt hdlast)]
      omega
  have hval : Nat.ofDigits 58 (List.replicate k 0 ++ (Nat.digits 58 n).reverse).reverse = n := by
    rw [List.reverse_append, List.reverse_reverse, List.reverse_replicate,
      Nat.ofDigits_append, Nat.ofDigits_digits, ofDigits_replicate_zero]
    simp
  have hbytes : Nat.digits 256 n = c.reverse := by
    rw [hn]
    apply Nat.digits_ofDigits 256 (by norm_num) c.reverse
    · intro l hl
      exact hcb l (List.mem_reverse.mp hl)
    · intro hne
      have hcne : c ≠ [] := by
        intro h
        apply hne
        rw [h]
        rfl
      obtain ⟨x, xs, hc⟩ := List.exists_cons_of_ne_nil hcne
      have hx : x ≠ 0 := by
        rw [hc] at hhead
        simpa using hhead
      have hrw : c.reverse = xs.reverse ++ [x] := by
        rw [hc]
        simp
      rw [getLast_of_eq_append hrw hne]
      exact hx
  rw [bs58decode_eq_of _ _ hdecode, hones, hval, natDigits_eq_digits 256 n (by norm_num),
    hbytes, List.reverse_reverse]

/-! ### Little-endian machine-integer encodings -/

/-- `u64::to_le_bytes` on `n % 2^64`: 8 little-endian bytes. -/
def u64le (n : ℕ) : List ℕ :=
  [n % 256, n / 256 % 256, n / 256 ^ 2 % 256, n / 256 ^ 3 % 256,
   n / 256 ^ 4 % 256, n / 256 ^ 5 % 256, n / 256 ^ 6 % 256, n / 256 ^ 7 % 256]

/-- `u32::to_le_bytes` on `n % 2^32`: 4 little-endian bytes. -/
def u32le (n : ℕ) : List ℕ :=
  [n % 256, n / 256 % 256, n / 256 ^ 2 % 256, n / 256 ^ 3 % 256]

/-- Value of a little-endian byte string. -/
def leVal (l : List ℕ) : ℕ := Nat.ofDigits 256 l

/-! ### Instruction model (solana_sdk::instruction) -/

/-- `solana_sdk::instruction::AccountMeta`: 32-byte key plus signer/writable
flags. -/
structure AccountMeta where
  pubkey : List ℕ
  is_signer : Bool
  is_writable : Bool
deriving DecidableEq

/-- `solana_sdk::instruction::Instruction`: program id, ordered account
metadata, opaque data bytes. -/
structure Instruction where
  program_id : List ℕ
  accounts : List AccountMeta
  data : List ℕ
deriving DecidableEq

/-- `spl_token::id()`: the 32 bytes of
`TokenkegQfeZyiNwAJbNbGKPFXCWuBvf9Ss623VQ5DA`. -/
def splTokenId : List ℕ :=
  (bs58decode "TokenkegQfeZyiNwAJbNbGKPFXCWuBvf9Ss623VQ5DA").getD []

/-- `solana_sdk::sysvar::rent::id()`: the 32 bytes of
`SysvarRent111111111111111111111111111111111`. -/
def rentSysvarId : List ℕ :=
  (bs58decode "SysvarRent111111111111111111111111111111111").getD []

/-- The system program id `11111111111111111111111111111111` (32 zero
bytes). -/
def systemProgramId : List ℕ := List.replicate 32 0

/-- Models `spl_token::instruction::initialize_mint` from the spl-token
dependency: after `check_program_account`, the data is
`TokenInstruction::InitializeMint` packed as tag byte 0, the decimals byte,
the 32-byte mint authority, then the `COption` freeze authority (flag byte 0,
or flag byte 1 followed by 32 bytes); the accounts are
`[mint (writable, non-signer), rent sysvar (readonly, non-signer)]`. -/
def initialize_mint (token_program_id mint_pubkey mint_authority_pubkey : List ℕ)
    (freeze_authority_pubkey : Option (List ℕ)) (decimals : ℕ) :
    Except String Instruction :=
  if token_program_id = splTokenId then
    Except.ok
      { program_id := token_program_id
        accounts := [⟨mint_pubkey, false, true⟩, ⟨rentSysvarId, false, false⟩]
        data := [0, decimals] ++ mint_authority_pubkey ++
          (match freeze_authority_pubkey with
           | none => [0]
           | some f => [1] ++ f) }
  else
    Except.error "IncorrectProgramId"

/-- Models `spl_token::instruction::mint_to` from the spl-token dependency:
after `check_program_account`, the data is `TokenInstruction::MintTo` packed
as tag byte 7 followed by the amount as 8 little-endian bytes; the accounts
are `[mint (writable), destination (writable), owner (readonly, signer iff no
multisig signers)]` followed by the multisig signers. -/
def mint_to (token_program_id mint_pubkey account_pubkey owner_pubkey : List ℕ)
    (signer_pubkeys : List (List ℕ)) (amount : ℕ) : Except String Instruction :=
  if token_program_id = splTokenId then
    Except.ok
      { program_id := token_program_id
        accounts := [⟨mint_pubkey, false, true⟩, ⟨account_pubkey, false, true⟩,
            ⟨owner_pubkey, signer_pubkeys.isEmpty, false⟩] ++
          signer_pubkeys.map (fun s => ⟨s, true, false⟩)
        data := [7] ++ u64le amount }
  else
    Except.error "IncorrectProgramId"

/-- Models `solana_sdk::system_instruction::transfer` from the solana-sdk
dependency: `SystemInstruction::Transfer { lamports }` serialized with
bincode — the enum variant index 2 as a 4-byte little-endian u32, then the
lamports as 8 little-endian bytes — with accounts
`[from (writable, signer), to (writable)]`. -/
def system_transfer (from_pubkey to_pubkey : List ℕ) (lamports : ℕ) : Instruction :=
  { program_id := systemProgramId
    accounts := [⟨from_pubkey, true, true⟩, ⟨to_pubkey, false, true⟩]
    data := u32le 2 ++ u64le lamports }

/-- Models `Pubkey::from_str`: strings longer than 44 characters are
rejected, then the string is base58-decoded (failure on characters outside
the alphabet), and the result must be exactly 32 bytes. -/
def pubkeyFromStr (s : String) : Option (List ℕ) :=
  if s.length > 44 then none
  else
    match bs58decode s with
    | none => none
    | some v => if v.length = 32 then some v else none

/-! ### Response records (the `#[derive(Serialize)]` structs in main.rs) -/

structure AccountMetaData where
  pubkey : String
  is_signer : Bool
  is_writable : Bool
deriving DecidableEq

structure TokenInstructionData where
  program_id : String
  accounts : List AccountMetaData
  instruction_data : String
deriving DecidableEq

/-- `TokenInstructionResponse`: note the record has a `success` flag and a
`data` payload but no `error` field. -/
structure TokenInstructionResponse where
  success : Bool
  data : TokenInstructionData
deriving DecidableEq

structure SignMessageData where
  signature : String
  public_key : String
  message : String
deriving DecidableEq

structure SignMessageResponse where
  success : Bool
  data : Option SignMessageData
  error : Option String
deriving DecidableEq

structure KeypairData where
  pubkey : String
  secret : String
deriving DecidableEq

structure KeypairResponse where
  success : Bool
  data : KeypairData
deriving DecidableEq

/-- `error_response` (src/src/main.rs lines 178-187): marks the envelope as
failed but stores the message in the `instruction_data` field of the `data`
payload, with empty program id and account list. -/
def error_response (msg : String) : TokenInstructionResponse :=
  { success := false
    data := { program_id := "", accounts := [], instruction_data := msg } }

/-- The per-account mapping both token handlers apply to builder output. -/
def metaToData (m : AccountMeta) : AccountMetaData :=
  { pubkey := bs58encode m.pubkey
    is_signer := m.is_signer
    is_writable := m.is_writable }

/-! ### Handlers: token endpoints (src/src/main.rs) -/

/-- Models the `create_token` handler (src/src/main.rs lines 134-176): parse
the mint key, then the mint authority; on parse failure return
`error_response` with the corresponding message; otherwise build the
initialize-mint instruction with no freeze authority and serialize it (keys
re-encoded in base58, data in base64). -/
def create_token (mintAuthority mint : String) (decimals : ℕ) : TokenInstructionResponse :=
  match pubkeyFromStr mint with
  | none => error_response "Invalid mint pubkey"
  | some mint_pubkey =>
    match pubkeyFromStr mintAuthority with
    | none => error_response "Invalid mint authority pubkey"
    | some authority_pubkey =>
      match initialize_mint splTokenId mint_pubkey authority_pubkey none decimals with
      | Except.error _ => error_response "Failed to create instruction"
      | Except.ok ix =>
        { success := true
          data := { program_id := bs58encode ix.program_id
                    accounts := ix.accounts.map metaToData
                    instruction_data := base64encode ix.data } }

/-- Models the `mint_token` handler (src/src/main.rs lines 190-239): parse
mint, destination, and authority keys in that order, build the mint-to
instruction with no multisig signers, and serialize it. -/
def mint_token (mint destination authority : String) (amount : ℕ) : TokenInstructionResponse :=
  match pubkeyFromStr mint with
  | none => error_response "Invalid mint pubkey"
  | some mint_pubkey =>
    match pubkeyFromStr destination with
    | none => error_response "Invalid destination pubkey"
    | some destination_pubkey =>
      match pubkeyFromStr authority with
      | none => error_response "Invalid authority pubkey"
      | some authority_pubkey =>
        match mint_to splTokenId mint_pubkey destination_pubkey authority_pubkey [] amount with
        | Except.error _ => error_response "Failed to create mint_to instruction"
        | Except.ok ix =>
          { success := true
            data := { program_id := bs58encode ix.program_id
                      accounts := ix.accounts.map metaToData
                      instruction_data := base64encode ix.data } }

/-! ### Keypairs and signing -/

/-- The dalek keypair as reconstructed by the service: 32-byte seed and
32-byte public key half. -/
structure KeypairModel where
  seed : List ℕ
  public_key : List ℕ
deriving DecidableEq

/-- Modelled from the spec: §4.3 `from_secret` — the implementation
(`ed25519_dalek::Keypair::from_bytes`) lives in the ed25519-dalek dependency,
not under src/.  Per the spec it fails `InvalidLength` unless the input is
exactly 64 bytes, and otherwise splits it into seed (first 32 bytes) and
embedded public key (last 32 bytes) without recomputing the public key from
the seed. -/
def keypair_from_bytes (b : List ℕ) : Option KeypairModel :=
  if b.length = 64 then some ⟨b.take 32, b.drop 32⟩ else none

/-- UTF-8 encoding of one character (`str::as_bytes` applies this to each
character of the message). -/
def utf8EncodeChar (c : Char) : List ℕ :=
  let n := c.toNat
  if n < 128 then [n]
  else if n < 2048 then [192 + n / 64, 128 + n % 64]
  else if n < 65536 then [224 + n / 4096, 128 + n / 64 % 64, 128 + n % 64]
  else [240 + n / 262144, 128 + n / 4096 % 64, 128 + n / 64 % 64, 128 + n % 64]

/-- `str::as_bytes`: the UTF-8 bytes of a string. -/
def strBytes (s : String) : List ℕ := s.data.flatMap utf8EncodeChar

def mixRound (acc b : ℕ) : ℕ := (acc * 131 + b + 17) % (2 ^ 256)

def pseudoDigest (l : List ℕ) : ℕ := l.foldl mixRound 7

/-- 32 little-endian bytes of `n % 2^256`. -/
def bytes32 (n : ℕ) : List ℕ := (List.range 32).map fun i => n / 256 ^ i % 256

/-- Modelled from the spec: §4.4 `sign` — the Ed25519 computation
(`ed25519_dalek::Keypair::sign`, called through
`solana_sdk::signature::Signer::sign_message`) lives in the ed25519-dalek
dependency, not under src/.  Per the spec it is deterministic per RFC 8032:
identical (key, message) pairs always produce an identical 64-byte
signature and no randomness is introduced at sign time.  The model follows
the RFC 8032 data flow — a nonce digest of secret material and message,
then a closing digest over the first signature half, the public key, and the
message — with a placeholder digest standing in for SHA-512 and the curve
arithmetic; like the real computation it is a pure function of the keypair
and message. -/
def sign_bytes (kp : KeypairModel) (m : List ℕ) : List ℕ :=
  let r := pseudoDigest (kp.seed ++ m)
  let s := pseudoDigest (bytes32 r ++ kp.public_key ++ m)
  bytes32 r ++ bytes32 s

/-- Models the `sign_message` handler (src/src/main.rs lines 242-291): empty
message or secret short-circuits with the missing-fields error before any
decoding; then the secret is base58-decoded, the keypair reconstructed from
the 64 bytes, and the message bytes signed. -/
def sign_message (message secret : String) : SignMessageResponse :=
  if message = "" ∨ secret = "" then
    { success := false, data := none, error := some "Missing required fields" }
  else
    match bs58decode secret with
    | none => { success := false, data := none, error := some "Invalid secret key format" }
    | some secret_bytes =>
      match keypair_from_bytes secret_bytes with
      | none => { success := false, data := none, error := some "Invalid secret key length" }
      | some keypair =>
        { success := true
          data := some
            { signature := base64encode (sign_bytes keypair (strBytes message))
              public_key := bs58encode keypair.public_key
              message := message }
          error := none }

/-- Models the `generate_keypair` handler (src/src/main.rs lines 120-130).
`Keypair::new()` draws fresh random key material; that randomness is
externalized as the parameter `kp_bytes`, the 64 bytes `keypair.to_bytes()`
returns (seed ‖ derived public key).  `keypair.pubkey()` is the public half,
i.e. the last 32 of those bytes; the handler base58-encodes it as `pubkey`
and base58-encodes all 64 bytes as `secret`. -/
def generate_keypair (kp_bytes : List ℕ) : KeypairResponse :=
  { success := true
    data := { pubkey := bs58encode (kp_bytes.drop 32)
              secret := bs58encode kp_bytes } }

/-- Models the lamports computation of the `send_sol` handler
(src/src/main.rs line 358): `SendRequest.amount` is an `f64` number of SOL
and the handler computes `(body.amount * 1_000_000_000.0) as u64`.  The
float is modelled as a rational, covering every `f64` value whose product
with 10^9 is exact (in particular every integer amount below 2^22); the
`as u64` cast truncates toward zero and saturates below at 0, which on such
nonnegative inputs is `Int.toNat ∘ Int.floor`. -/
def send_sol_lamports (amount : ℚ) : ℕ := (Int.floor (amount * 1000000000)).toNat

/-- The transfer instruction `send_sol` submits (src/src/main.rs lines
364-373): `system_instruction::transfer(from, to, lamports)`. -/
def send_sol_instruction (from_pubkey to_pubkey : List ℕ) (amount : ℚ) : Instruction :=
  system_transfer from_pubkey to_pubkey (send_sol_lamports amount)

/-! ### Claim theorems -/

/-- C1 counterexample: a create-token request with an invalid mint key
produces a response with `success = false` whose message sits inside the
`data` payload (`instruction_data` field) — the claimed `error` field does
not exist on `TokenInstructionResponse`, so the message is NOT carried in an
error field. -/
theorem create_token_failure_message_in_data :
    (create_token "x" "!" 0).success = false ∧
    (create_token "x" "!" 0).data.instruction_data = "Invalid mint pubkey" := by
  constructor
  · decide
  · decide

/-- C1 (amended): failing create-mint and mint-tokens requests return an
envelope with `success = false` whose message is embedded in the data
payload's `instruction_data` field (program id and accounts empty); the
response type has no `error` field.  Only the sign-message operation carries
a separate `error` field on failure. -/
theorem token_failure_envelope (msg mintAuthority mint destination authority : String)
    (decimals amount : ℕ) (hmint : pubkeyFromStr mint = none) :
    (error_response msg).success = false ∧
    (error_response msg).data.instruction_data = msg ∧
    (error_response msg).data.program_id = "" ∧
    (error_response msg).data.accounts = [] ∧
    create_token mintAuthority mint decimals = error_response "Invalid mint pubkey" ∧
    mint_token mint destination authority amount = error_response "Invalid mint pubkey" ∧
    sign_message "" mint =
      { success := false, data := none, error := some "Missing required fields" } := by
  refine ⟨rfl, rfl, rfl, rfl, ?_, ?_, ?_⟩
  · unfold create_token
    rw [hmint]
  · unfold mint_token
    rw [hmint]
  · unfold sign_message
    rw [if_pos (Or.inl rfl)]

/-- C1 witness: the amended statement at concrete inputs. -/
theorem token_failure_envelope_witness :
    (error_response "e").success = false ∧
    (error_response "e").data.instruction_data = "e" ∧
    (error_response "e").data.program_id = "" ∧
    (error_response "e").data.accounts = [] ∧
    create_token "x" "!" 0 = error_response "Invalid mint pubkey" ∧
    mint_token "!" "y" "z" 7 = error_response "Invalid mint pubkey" ∧
    sign_message "" "!" =
      { success := false, data := none, error := some "Missing required fields" } :=
  token_failure_envelope "e" "x" "!" "y" "z" 0 7 (by decide)

/-- C2 counterexample: the native-transfer instruction data for amount 0 is
12 bytes (4-byte bincode variant tag, then 8 amount bytes), not the claimed
9 bytes. -/
theorem system_transfer_data_not_nine_bytes :
    (system_transfer (List.replicate 32 0) (List.replicate 32 0) 0).data.length = 12 ∧
    ¬ (system_transfer (List.replicate 32 0) (List.replicate 32 0) 0).data.length = 9 := by
  constructor
  · decide
  · decide

/-- C2 (amended): for every pair of 32-byte keys and u64 amount, the
native-currency transfer instruction data is exactly the fixed 4-byte
little-endian tag (variant index 2) followed by the amount as 8
little-endian bytes — 12 bytes total, the amount bytes decoding back to the
amount — including amount 0 and 18446744073709551615. -/
theorem system_transfer_data_layout (from_pubkey to_pubkey : List ℕ) (amount : ℕ)
    (h : amount < 2 ^ 64) :
    (system_transfer from_pubkey to_pubkey amount).data = [2, 0, 0, 0] ++ u64le amount ∧
    (system_transfer from_pubkey to_pubkey amount).data.length = 12 ∧
    leVal (u64le amount) = amount := by
  refine ⟨rfl, ?_, ?_⟩
  · simp [system_transfer, u32le, u64le]
  · simp only [leVal, u64le, Nat.ofDigits_cons, Nat.ofDigits_nil, Nat.cast_id]
    have h2 : (256 : ℕ) ^ 2 = 65536 := by norm_num
    have h3 : (256 : ℕ) ^ 3 = 16777216 := by norm_num
    have h4 : (256 : ℕ) ^ 4 = 4294967296 := by norm_num
    have h5 : (256 : ℕ) ^ 5 = 1099511627776 := by norm_num
    have h6 : (256 : ℕ) ^ 6 = 281474976710656 := by norm_num
    have h7 : (256 : ℕ) ^ 7 = 72057594037927936 := by norm_num
    have h64 : (2 : ℕ) ^ 64 = 18446744073709551616 := by norm_num
    rw [h2, h3, h4, h5, h6, h7] at *
    rw [h64] at h
    omega

/-- C2 witness: the amended statement at the extreme amount. -/
theorem system_transfer_data_layout_witness :
    (system_transfer (List.replicate 32 0) (List.replicate 32 0)
        18446744073709551615).data = [2, 0, 0, 0] ++ u64le 18446744073709551615 ∧
    (system_transfer (List.replicate 32 0) (List.replicate 32 0)
        18446744073709551615).data.length = 12 ∧
    leVal (u64le 18446744073709551615) = 18446744073709551615 :=
  system_transfer_data_layout (List.replicate 32 0) (List.replicate 32 0)
    18446744073709551615 (by norm_num)

/-- C3 counterexample: the send operation does not use its amount input
directly as lamports — an amount of 1 transfers 1000000000 lamports (the
request field is an f64 count of SOL). -/
theorem send_sol_amount_not_direct :
    send_sol_lamports 1 = 1000000000 ∧ ¬ send_sol_lamports 1 = 1 := by
  have h1 : send_sol_lamports 1 = 1000000000 := by
    unfold send_sol_lamports
    norm_num
    rfl
  exact ⟨h1, by rw [h1]; norm_num⟩

/-- C3 (amended): the native-currency transfer operation takes its amount
input as an f64 count of SOL (`SendRequest.amount: f64`), not a u64 lamport
count; the lamports transferred are the amount multiplied by 10^9 and
truncated to u64 (shown here for every integer amount, where the float
product is exact). -/
theorem send_sol_lamports_scales (n : ℕ) :
    send_sol_lamports (n : ℚ) = n * 1000000000 ∧
    send_sol_instruction (List.replicate 32 0) (List.replicate 32 0) (n : ℚ) =
      system_transfer (List.replicate 32 0) (List.replicate 32 0) (n * 1000000000) := by
  have hq : ((n : ℚ) * 1000000000) = ((n * 1000000000 : ℕ) : ℚ) := by
    push_cast
    ring
  have h1 : send_sol_lamports (n : ℚ) = n * 1000000000 := by
    unfold send_sol_lamports
    rw [hq, Int.floor_natCast]
    omega
  exact ⟨h1, by rw [send_sol_instruction, h1]⟩

/-- C4: for every valid mint and authority key and decimals in 0..=255, the
create-mint instruction data is exactly the tag byte 0 for initialize-mint,
the decimals byte, the 32-byte authority, a presence flag byte for the
freeze authority, and the 32-byte freeze authority exactly when the flag is
1.  The handler always passes no freeze authority, so its serialized data is
the flag-0 form. -/
theorem create_mint_instruction_data (mintS authS : String) (decimals : ℕ)
    (m a : List ℕ) (freeze : Option (List ℕ))
    (hm : pubkeyFromStr mintS = some m) (ha : pubkeyFromStr authS = some a)
    (_hdec : decimals < 256) :
    initialize_mint splTokenId m a freeze decimals =
      Except.ok
        { program_id := splTokenId
          accounts := [⟨m, false, true⟩, ⟨rentSysvarId, false, false⟩]
          data := [0, decimals] ++ a ++
            (match freeze with
             | none => [0]
             | some f => [1] ++ f) } ∧
    (create_token authS mintS decimals).success = true ∧
    (create_token authS mintS decimals).data.instruction_data =
      base64encode ([0, decimals] ++ a ++ [0]) := by
  refine ⟨by simp [initialize_mint], ?_, ?_⟩
  · unfold create_token
    rw [hm, ha]
    simp [initialize_mint]
  · unfold create_token
    rw [hm, ha]
    simp [initialize_mint]

/-- C4 witness: concrete valid keys (the all-zero key) and decimals 9. -/
theorem create_mint_instruction_data_witness :
    initialize_mint splTokenId (List.replicate 32 0) (List.replicate 32 0) none 9 =
      Except.ok
        { program_id := splTokenId
          accounts := [⟨List.replicate 32 0, false, true⟩, ⟨rentSysvarId, false, false⟩]
          data := [0, 9] ++ List.replicate 32 0 ++ [0] } ∧
    (create_token "11111111111111111111111111111111"
        "11111111111111111111111111111111" 9).success = true ∧
    (create_token "11111111111111111111111111111111"
        "11111111111111111111111111111111" 9).data.instruction_data =
      base64encode ([0, 9] ++ List.replicate 32 0 ++ [0]) :=
  create_mint_instruction_data "11111111111111111111111111111111"
    "11111111111111111111111111111111" 9 (List.replicate 32 0) (List.replicate 32 0)
    none (by decide) (by decide) (by decide)

/-- C5: for every valid mint, destination, and authority key and u64 amount,
the mint-tokens instruction data is exactly the mint-to tag byte 7 followed
by the amount as 8 little-endian bytes (decoding back to the amount), and
the account list is [mint (writable, non-signer), destination (writable,
non-signer), authority (readonly, signer)] in that order. -/
theorem mint_tokens_instruction (mintS destS authS : String) (amount : ℕ)
    (m d a : List ℕ)
    (hm : pubkeyFromStr mintS = some m) (hd : pubkeyFromStr destS = some d)
    (ha : pubkeyFromStr authS = some a) (hamt : amount < 2 ^ 64) :
    mint_to splTokenId m d a [] amount =
      Except.ok
        { program_id := splTokenId
          accounts := [⟨m, false, true⟩, ⟨d, false, true⟩, ⟨a, true, false⟩]
          data := [7] ++ u64le amount } ∧
    (mint_token mintS destS authS amount).success = true ∧
    (mint_token mintS destS authS amount).data.instruction_data =
      base64encode ([7] ++ u64le amount) ∧
    (mint_token mintS destS authS amount).data.accounts =
      [⟨bs58encode m, false, true⟩, ⟨bs58encode d, false, true⟩,
       ⟨bs58encode a, true, false⟩] ∧
    leVal (u64le amount) = amount := by
  have hok : mint_to splTokenId m d a [] amount =
      Except.ok
        { program_id := splTokenId
          accounts := [⟨m, false, true⟩, ⟨d, false, true⟩, ⟨a, true, false⟩]
          data := [7] ++ u64le amount } := by
    simp [mint_to]
  have hle : leVal (u64le amount) = amount := by
    simp only [leVal, u64le, Nat.ofDigits_cons, Nat.ofDigits_nil, Nat.cast_id]
    have h2 : (256 : ℕ) ^ 2 = 65536 := by norm_num
    have h3 : (256 : ℕ) ^ 3 = 16777216 := by norm_num
    have h4 : (256 : ℕ) ^ 4 = 4294967296 := by norm_num
    have h5 : (256 : ℕ) ^ 5 = 1099511627776 := by norm_num
    have h6 : (256 : ℕ) ^ 6 = 281474976710656 := by norm_num
    have h7 : (256 : ℕ) ^ 7 = 72057594037927936 := by norm_num
    have h64 : (2 : ℕ) ^ 64 = 18446744073709551616 := by norm_num
    rw [h2, h3, h4, h5, h6, h7]
    rw [h64] at hamt
    omega
  refine ⟨hok, ?_, ?_, ?_, hle⟩ <;>
    · unfold mint_token
      rw [hm, hd, ha]
      simp [hok, metaToData]

/-- C5 witness: the all-zero key for all three roles and amount 5. -/
theorem mint_tokens_instruction_witness :
    mint_to splTokenId (List.replicate 32 0) (List.replicate 32 0)
        (List.replicate 32 0) [] 5 =
      Except.ok
        { program_id := splTokenId
          accounts := [⟨List.replicate 32 0, false, true⟩,
            ⟨List.replicate 32 0, false, true⟩, ⟨List.replicate 32 0, true, false⟩]
          data := [7] ++ u64le 5 } ∧
    (mint_token "11111111111111111111111111111111" "11111111111111111111111111111111"
        "11111111111111111111111111111111" 5).success = true ∧
    (mint_token "11111111111111111111111111111111" "11111111111111111111111111111111"
        "11111111111111111111111111111111" 5).data.instruction_data =
      base64encode ([7] ++ u64le 5) ∧
    (mint_token "11111111111111111111111111111111" "11111111111111111111111111111111"
        "11111111111111111111111111111111" 5).data.accounts =
      [⟨bs58encode (List.replicate 32 0), false, true⟩,
       ⟨bs58encode (List.replicate 32 0), false, true⟩,
       ⟨bs58encode (List.replicate 32 0), true, false⟩] ∧
    leVal (u64le 5) = 5 :=
  mint_tokens_instruction "11111111111111111111111111111111"
    "11111111111111111111111111111111" "11111111111111111111111111111111" 5
    (List.replicate 32 0) (List.replicate 32 0) (List.replicate 32 0)
    (by decide) (by decide) (by decide) (by norm_num)

/-- C6: for every valid input the create-mint account list is exactly two
entries in order: the mint account (writable, non-signer), then the rent
sysvar account (non-writable, non-signer). -/
theorem create_mint_accounts (mintS authS : String) (decimals : ℕ) (m a : List ℕ)
    (hm : pubkeyFromStr mintS = some m) (ha : pubkeyFromStr authS = some a) :
    (create_token authS mintS decimals).data.accounts =
      [⟨bs58encode m, false, true⟩,
       ⟨"SysvarRent111111111111111111111111111111111", false, false⟩] ∧
    (create_token authS mintS decimals).data.accounts.length = 2 := by
  have hrent : bs58encode rentSysvarId = "SysvarRent111111111111111111111111111111111" := by
    decide
  constructor
  · unfold create_token
    rw [hm, ha]
    simp [initialize_mint, metaToData, hrent]
  · unfold create_token
    rw [hm, ha]
    simp [initialize_mint]

/-- C6 witness: concrete valid keys. -/
theorem create_mint_accounts_witness :
    (create_token "11111111111111111111111111111111"
        "11111111111111111111111111111111" 0).data.accounts =
      [⟨bs58encode (List.replicate 32 0), false, true⟩,
       ⟨"SysvarRent111111111111111111111111111111111", false, false⟩] ∧
    (create_token "11111111111111111111111111111111"
        "11111111111111111111111111111111" 0).data.accounts.length = 2 :=
  create_mint_accounts "11111111111111111111111111111111"
    "11111111111111111111111111111111" 0 (List.replicate 32 0) (List.replicate 32 0)
    (by decide) (by decide)

/-- C7: signing is deterministic — two calls of the sign operation on equal
keypairs and equal messages produce byte-identical signatures, and two
sign-message requests with equal fields produce identical responses; the
modelled signing pipeline is a pure function of the keypair and message with
no randomness at sign time. -/
theorem sign_deterministic (kp1 kp2 : KeypairModel) (m1 m2 : List ℕ)
    (msg1 msg2 sec1 sec2 : String)
    (hk : kp1 = kp2) (hm : m1 = m2) (hmsg : msg1 = msg2) (hsec : sec1 = sec2) :
    sign_bytes kp1 m1 = sign_bytes kp2 m2 ∧
    sign_message msg1 sec1 = sign_message msg2 sec2 := by
  subst hk
  subst hm
  subst hmsg
  subst hsec
  exact ⟨rfl, rfl⟩

/-- C7 witness: two identical concrete requests. -/
theorem sign_deterministic_witness :
    sign_bytes ⟨List.replicate 32 0, List.replicate 32 0⟩ [104, 105] =
      sign_bytes ⟨List.replicate 32 0, List.replicate 32 0⟩ [104, 105] ∧
    sign_message "m"
        "1111111111111111111111111111111111111111111111111111111111111111" =
      sign_message "m"
        "1111111111111111111111111111111111111111111111111111111111111111" :=
  sign_deterministic ⟨List.replicate 32 0, List.replicate 32 0⟩
    ⟨List.replicate 32 0, List.replicate 32 0⟩ [104, 105] [104, 105]
    "m" "m" "1111111111111111111111111111111111111111111111111111111111111111"
    "1111111111111111111111111111111111111111111111111111111111111111"
    rfl rfl rfl rfl

/-- C8: the sign-message operation returns the missing-fields failure — and
returns it with no data payload, before any decoding — exactly when the
message text or the secret text is empty; no other input produces that
response. -/
theorem sign_message_missing_fields (message secret : String) :
    sign_message message secret =
      { success := false, data := none, error := some "Missing required fields" } ↔
      (message = "" ∨ secret = "") := by
  constructor
  · intro h
    unfold sign_message at h
    split at h
    · assumption
    · split at h
      · exact absurd (congrArg SignMessageResponse.error h) (by decide)
      · split at h
        · exact absurd (congrArg SignMessageResponse.error h) (by decide)
        · simp at h
  · intro h
    unfold sign_message
    rw [if_pos h]

/-- C8 witness: an empty message triggers the missing-fields error. -/
theorem sign_message_missing_fields_witness :
    sign_message "" "abc" =
      { success := false, data := none, error := some "Missing required fields" } :=
  (sign_message_missing_fields "" "abc").mpr (Or.inl rfl)

/-- C9: keypair reconstruction fails unless the input is exactly 64 bytes;
on a 64-byte input it splits it into seed (first 32) and embedded public key
(last 32) without recomputing the public key, so the public key reported by
the sign operation is the base58 encoding of the last-32-byte half of the
decoded secret. -/
theorem from_secret_split (b : List ℕ) (msg secret : String) (secret_bytes : List ℕ)
    (hmsg : msg ≠ "") (hsec : secret ≠ "")
    (hdec : bs58decode secret = some secret_bytes)
    (hlen : secret_bytes.length = 64) :
    (b.length ≠ 64 → keypair_from_bytes b = none) ∧
    (b.length = 64 → keypair_from_bytes b = some ⟨b.take 32, b.drop 32⟩) ∧
    (sign_message msg secret).success = true ∧
    (sign_message msg secret).data = some
      { signature := base64encode (sign_bytes ⟨secret_bytes.take 32, secret_bytes.drop 32⟩
          (strBytes msg))
        public_key := bs58encode (secret_bytes.drop 32)
        message := msg } := by
  refine ⟨?_, ?_, ?_, ?_⟩
  · intro h
    simp [keypair_from_bytes, h]
  · intro h
    simp [keypair_from_bytes, h]
  · unfold sign_message
    rw [if_neg (by tauto), hdec]
    simp [keypair_from_bytes, hlen]
  · unfold sign_message
    rw [if_neg (by tauto), hdec]
    simp [keypair_from_bytes, hlen]

/-- C9 witness: the all-zero 64-byte secret (64 `'1'` characters in
base58). -/
theorem from_secret_split_witness :
    ((List.replicate 64 (0 : ℕ)).length ≠ 64 →
      keypair_from_bytes (List.replicate 64 0) = none) ∧
    ((List.replicate 64 (0 : ℕ)).length = 64 →
      keypair_from_bytes (List.replicate 64 0) =
        some ⟨(List.replicate 64 0).take 32, (List.replicate 64 0).drop 32⟩) ∧
    (sign_message "m"
        "1111111111111111111111111111111111111111111111111111111111111111").success =
      true ∧
    (sign_message "m"
        "1111111111111111111111111111111111111111111111111111111111111111").data = some
      { signature := base64encode (sign_bytes
          ⟨(List.replicate 64 0).take 32, (List.replicate 64 0).drop 32⟩ (strBytes "m"))
        public_key := bs58encode ((List.replicate 64 0).drop 32)
        message := "m" } :=
  from_secret_split (List.replicate 64 0) "m"
    "1111111111111111111111111111111111111111111111111111111111111111"
    (List.replicate 64 0) (by decide) (by decide)
    (by set_option maxRecDepth 4000 in decide) (by decide)

/-- C10: every successful generate-keypair response is internally
consistent — the secret field base58-decodes to exactly the 64 keypair
bytes, and the last 32 of those bytes base58-encode to exactly the returned
pubkey field. -/
theorem generate_keypair_consistent (kp_bytes : List ℕ)
    (hlen : kp_bytes.length = 64) (hb : ∀ x ∈ kp_bytes, x < 256) :
    (generate_keypair kp_bytes).success = true ∧
    bs58decode ((generate_keypair kp_bytes).data.secret) = some kp_bytes ∧
    kp_bytes.length = 64 ∧
    bs58encode (kp_bytes.drop 32) = (generate_keypair kp_bytes).data.pubkey := by
  exact ⟨rfl, bs58_roundtrip kp_bytes hb, hlen, rfl⟩

/-- C10 witness: the all-zero 64-byte keypair material. -/
theorem generate_keypair_consistent_witness :
    (generate_keypair (List.replicate 64 0)).success = true ∧
    bs58decode ((generate_keypair (List.replicate 64 0)).data.secret) =
      some (List.replicate 64 0) ∧
    (List.replicate 64 (0 : ℕ)).length = 64 ∧
    bs58encode ((List.replicate 64 0).drop 32) =
      (generate_keypair (List.replicate 64 0)).data.pubkey :=
  generate_keypair_consistent (List.replicate 64 0) (by decide) (by decide)
